import Mathlib

/-!
Shallow embedding of `src/isambard/modelling/create_loop_database.py`.

The module processes a list of PDB file paths: it splits them into chunks of
100, runs `fault_tolerant_gather` on every path of a chunk (sequentially via
`map`, or via `multiprocessing.Pool.map` when `processes > 1`; `Pool.map`
returns its results in input order, so with a deterministic pure extractor
both denote the same list), updates the `db_stats` counters while staging
successful loop records in the session, and commits once per chunk.

Modelling choices:
  * `gather_loops_from_pdb` (imported from `extract_loop_data`, not part of
    this file) is a parameter `extractor : String → Except E (List Rec)`:
    `Except.ok rs` is a normal return of the record list `rs`, and
    `Except.error e` is a raised exception `e` (caught by the
    `except Exception` clause of `fault_tolerant_gather`).
  * a loop record (a `dict` handed to the `Loops` ORM constructor) is an
    abstract type `Rec`; an exception is an abstract type `E`, rendered for
    console output by a parameter `errStr : E → String` (Python's `str(e)`).
  * the SQLite session is modelled by the `pending` list (rows passed to
    `session.add` and not yet committed) and the `committed` list (one batch
    per `session.commit()` call); the database file path `output_path` only
    names the SQLite file and plays no further role in the control flow, so
    it does not appear in the state.
  * `print` calls for per-file failures are modelled by appending the printed
    text to the `messages` list; the final summary `print` after the loop is
    not part of `messages`.
-/

set_option autoImplicit false
set_option maxRecDepth 10000

/-- Item: one element of the list returned by `fault_tolerant_gather`, which
in the Python source is `List[Union[dict, Tuple[str, Exception]]]`: either a
loop record (`dict`) or a `(path, exception)` failure tuple. -/
inductive Item (Rec E : Type) : Type where
  | record : Rec → Item Rec E
  | failure : String → E → Item Rec E
deriving DecidableEq

/-- fault_tolerant_gather: calls the extractor on `path`; a normal return
gives the record list unchanged (each record tagged `Item.record`); a raised
exception `e` is caught and the function returns the one-element list
`[(path, e)]` instead of propagating it.  The Lean function is total, so the
failure indeed never propagates. -/
def fault_tolerant_gather {Rec E : Type} (extractor : String → Except E (List Rec))
    (path : String) : List (Item Rec E) :=
  match extractor path with
  | Except.ok loops => loops.map Item.record
  | Except.error e => [Item.failure path e]

/-- DbStats: the `db_stats` dictionary of `process_pdb_files`. -/
structure DbStats : Type where
  total_pdbs : Nat
  succeeded : Nat
  failed : Nat
  total_loops : Nat
deriving DecidableEq

/-- RunState: the mutable state of `process_pdb_files`: the counters, the
console output so far, the rows staged by `session.add` since the last
commit, and the batches already committed (one list per `session.commit`). -/
structure RunState (Rec : Type) : Type where
  stats : DbStats
  messages : List String
  pending : List Rec
  committed : List (List Rec)
deriving DecidableEq

/-- failMessage: the text printed for one failure tuple.  Verbose mode prints
`f'Failed to process {path}:\n {str(e)}\n'`; otherwise
`f'Failed to process {path}'`. -/
def failMessage (verbose : Bool) (path estr : String) : String :=
  if verbose then "Failed to process " ++ path ++ ":\n " ++ estr ++ "\n"
  else "Failed to process " ++ path

/-- process_loop: the body of `for loop in itertools.chain(*loop_lists)`.
`total_loops` is incremented for every item, before the `isinstance` test; a
failure tuple then increments `failed` and prints a notice; a record is
staged via `session.add` and increments `succeeded`. -/
def process_loop {Rec E : Type} (errStr : E → String) (verbose : Bool)
    (st : RunState Rec) (loop : Item Rec E) : RunState Rec :=
  match loop with
  | Item.failure path e =>
      { st with
        stats := { st.stats with
          total_loops := st.stats.total_loops + 1,
          failed := st.stats.failed + 1 },
        messages := st.messages ++ [failMessage verbose path (errStr e)] }
  | Item.record r =>
      { st with
        stats := { st.stats with
          total_loops := st.stats.total_loops + 1,
          succeeded := st.stats.succeeded + 1 },
        pending := st.pending ++ [r] }

/-- gather_outcomes: the dispatch at the top of the chunk loop.  With
`processes > 1` the chunk is mapped through `multiprocessing.Pool.map`,
which applies the function to every path and returns the results in input
order; otherwise the plain `map` builtin is used.  With a deterministic pure
extractor both branches denote `paths.map (fault_tolerant_gather extractor)`. -/
def gather_outcomes {Rec E : Type} (processes : Nat)
    (extractor : String → Except E (List Rec)) (paths : List String) :
    List (List (Item Rec E)) :=
  if processes > 1 then
    paths.map (fault_tolerant_gather extractor)
  else
    paths.map (fault_tolerant_gather extractor)

/-- process_chunk: one iteration of `for paths in data_chunks`: gather the
outcome lists, add `len(paths)` to `total_pdbs`, run the per-item loop over
the chained outcome lists, then `session.commit()` (the pending rows become
one committed batch). -/
def process_chunk {Rec E : Type} (extractor : String → Except E (List Rec))
    (errStr : E → String) (processes : Nat) (verbose : Bool)
    (st : RunState Rec) (paths : List String) : RunState Rec :=
  let loop_lists := gather_outcomes processes extractor paths
  let st1 := { st with stats :=
    { st.stats with total_pdbs := st.stats.total_pdbs + paths.length } }
  let st2 := loop_lists.flatten.foldl (process_loop errStr verbose) st1
  { st2 with pending := [], committed := st2.committed ++ [st2.pending] }

/-- chunksAux: slices 100 elements at a time, the recursion fuelled by the
list length so that the definition is structural and computes. -/
def chunksAux {α : Type} : Nat → List α → List (List α)
  | _, [] => []
  | 0, _ => []
  | fuel + 1, l => l.take 100 :: chunksAux fuel (l.drop 100)

/-- data_chunks: the chunking comprehension
`[data_file_paths[i:i + 100] for i in range(0, len(data_file_paths), 100)]`:
consecutive slices of 100 paths, the last slice possibly shorter; an empty
input yields no chunks.  `l.take 100` is the slice `l[i:i+100]` and
`l.drop 100` advances `i` by 100. -/
def data_chunks {α : Type} (l : List α) : List (List α) :=
  chunksAux l.length l

/-- initState: `db_stats` all zero, nothing printed, session empty. -/
def initState (Rec : Type) : RunState Rec :=
  ⟨⟨0, 0, 0, 0⟩, [], [], []⟩

/-- process_pdb_files: the whole run, folding `process_chunk` over the
chunks. -/
def process_pdb_files {Rec E : Type} (extractor : String → Except E (List Rec))
    (errStr : E → String) (data_file_paths : List String) (processes : Nat)
    (verbose : Bool) : RunState Rec :=
  (data_chunks data_file_paths).foldl
    (process_chunk extractor errStr processes verbose) (initState Rec)

/-- recordsOf: the loop records among a list of outcome items, in order. -/
def recordsOf {Rec E : Type} : List (Item Rec E) → List Rec
  | [] => []
  | Item.record r :: rest => r :: recordsOf rest
  | Item.failure _ _ :: rest => recordsOf rest

/-- failuresOf: the failure tuples among a list of outcome items, in order. -/
def failuresOf {Rec E : Type} : List (Item Rec E) → List (String × E)
  | [] => []
  | Item.record _ :: rest => failuresOf rest
  | Item.failure p e :: rest => (p, e) :: failuresOf rest

/-- okRecords: the records a path contributes: the extractor's list when it
returns normally, nothing when it raises. -/
def okRecords {Rec E : Type} (extractor : String → Except E (List Rec))
    (p : String) : List Rec :=
  match extractor p with
  | Except.ok rs => rs
  | Except.error _ => []

/-- runFailures: the `(path, exception)` pairs of the paths whose extraction
raises, in input order. -/
def runFailures {Rec E : Type} (extractor : String → Except E (List Rec))
    (l : List String) : List (String × E) :=
  l.filterMap (fun p =>
    match extractor p with
    | Except.ok _ => none
    | Except.error e => some (p, e))

/-- totalRecords: the sum over the paths whose extraction succeeds of the
number of records each produced. -/
def totalRecords {Rec E : Type} (extractor : String → Except E (List Rec))
    (l : List String) : Nat :=
  ((l.map (okRecords extractor)).map List.length).sum

/-! ### Chunking lemmas -/

/-- chunksAux ignores the exact fuel as long as it is at least the length. -/
theorem chunksAux_congr {α : Type} :
    ∀ (n m : Nat) (l : List α), l.length ≤ n → l.length ≤ m →
      chunksAux n l = chunksAux m l := by
  intro n
  induction n with
  | zero =>
    intro m l hn _
    have hl : l = [] := List.length_eq_zero.mp (Nat.le_zero.mp hn)
    subst hl
    cases m <;> rfl
  | succ n ih =>
    intro m l hn hm
    cases l with
    | nil => cases m <;> rfl
    | cons a t =>
      cases m with
      | zero => simp at hm
      | succ m =>
        simp only [chunksAux]
        congr 1
        apply ih
        · simp only [List.length_drop, List.length_cons]
          simp only [List.length_cons] at hn
          omega
        · simp only [List.length_drop, List.length_cons]
          simp only [List.length_cons] at hm
          omega

/-- data_chunks of the empty input is the empty chunk list. -/
theorem data_chunks_nil {α : Type} : data_chunks ([] : List α) = [] := rfl

/-- data_chunks peels off the first slice of 100 on a nonempty input. -/
theorem data_chunks_cons {α : Type} (a : α) (t : List α) :
    data_chunks (a :: t) =
      (a :: t).take 100 :: data_chunks ((a :: t).drop 100) := by
  show chunksAux (a :: t).length (a :: t) = _
  simp only [List.length_cons, chunksAux]
  congr 1
  apply chunksAux_congr
  · simp only [List.length_drop, List.length_cons]
    omega
  · exact le_rfl

/-- Concatenating the chunks in order reproduces the input exactly. -/
theorem data_chunks_flatten {α : Type} (l : List α) :
    (data_chunks l).flatten = l := by
  have H : ∀ (n : Nat) (l : List α), l.length ≤ n →
      (data_chunks l).flatten = l := by
    intro n
    induction n with
    | zero =>
      intro l h
      have hl : l = [] := List.length_eq_zero.mp (Nat.le_zero.mp h)
      subst hl
      rfl
    | succ n ih =>
      intro l h
      cases l with
      | nil => rfl
      | cons a t =>
        rw [data_chunks_cons, List.flatten_cons,
          ih ((a :: t).drop 100) (by
            simp only [List.length_drop, List.length_cons]
            simp only [List.length_cons] at h
            omega)]
        exact List.take_append_drop 100 (a :: t)
  exact H l.length l le_rfl

/-- Every chunk is nonempty and holds at most 100 elements. -/
theorem data_chunks_mem_sizes {α : Type} (l : List α) :
    ∀ c ∈ data_chunks l, c ≠ [] ∧ c.length ≤ 100 := by
  have H : ∀ (n : Nat) (l : List α), l.length ≤ n →
      ∀ c ∈ data_chunks l, c ≠ [] ∧ c.length ≤ 100 := by
    intro n
    induction n with
    | zero =>
      intro l h
      have hl : l = [] := List.length_eq_zero.mp (Nat.le_zero.mp h)
      subst hl
      intro c hc
      simp [data_chunks_nil] at hc
    | succ n ih =>
      intro l h
      cases l with
      | nil => intro c hc; simp [data_chunks_nil] at hc
      | cons a t =>
        rw [data_chunks_cons]
        intro c hc
        rcases List.mem_cons.mp hc with hc | hc
        · subst hc
          constructor
          · simp [List.take_eq_nil_iff]
          · simp only [List.length_take, List.length_cons]
            omega
        · exact ih ((a :: t).drop 100) (by
            simp only [List.length_drop, List.length_cons]
            simp only [List.length_cons] at h
            omega) c hc
  exact H l.length l le_rfl

/-- Every chunk other than the final one holds exactly 100 elements. -/
theorem data_chunks_dropLast_sizes {α : Type} (l : List α) :
    ∀ c ∈ (data_chunks l).dropLast, c.length = 100 := by
  have H : ∀ (n : Nat) (l : List α), l.length ≤ n →
      ∀ c ∈ (data_chunks l).dropLast, c.length = 100 := by
    intro n
    induction n with
    | zero =>
      intro l h
      have hl : l = [] := List.length_eq_zero.mp (Nat.le_zero.mp h)
      subst hl
      intro c hc
      simp [data_chunks_nil] at hc
    | succ n ih =>
      intro l h
      cases l with
      | nil => intro c hc; simp [data_chunks_nil] at hc
      | cons a t =>
        rw [data_chunks_cons]
        have hlen : ((a :: t).drop 100).length ≤ n := by
          simp only [List.length_drop, List.length_cons]
          simp only [List.length_cons] at h
          omega
        cases hd : (a :: t).drop 100 with
        | nil =>
          rw [data_chunks_nil, List.dropLast_single]
          intro c hc
          simp at hc
        | cons b u =>
          rw [data_chunks_cons, List.dropLast_cons₂]
          intro c hc
          rcases List.mem_cons.mp hc with hc | hc
          · subst hc
            have hgt : 100 < (a :: t).length := by
              by_contra hle
              have hnil : (a :: t).drop 100 = [] :=
                List.drop_eq_nil_of_le (by omega)
              rw [hd] at hnil
              exact List.cons_ne_nil b u hnil
            simp only [List.length_take]
            omega
          · rw [← data_chunks_cons b u] at hc
            exact ih (b :: u) (hd ▸ hlen) c hc
  exact H l.length l le_rfl

/-! ### Outcome bookkeeping lemmas -/

theorem recordsOf_append {Rec E : Type} (xs ys : List (Item Rec E)) :
    recordsOf (xs ++ ys) = recordsOf xs ++ recordsOf ys := by
  induction xs with
  | nil => rfl
  | cons it rest ih => cases it <;> simp [recordsOf, ih]

theorem failuresOf_append {Rec E : Type} (xs ys : List (Item Rec E)) :
    failuresOf (xs ++ ys) = failuresOf xs ++ failuresOf ys := by
  induction xs with
  | nil => rfl
  | cons it rest ih => cases it <;> simp [failuresOf, ih]

/-- The records of a single gather are exactly what the extractor returned on
success and nothing on failure. -/
theorem recordsOf_map_record {Rec E : Type} (rs : List Rec) :
    recordsOf (rs.map (Item.record : Rec → Item Rec E)) = rs := by
  induction rs with
  | nil => rfl
  | cons r rest ih => simp [recordsOf, ih]

theorem failuresOf_map_record {Rec E : Type} (rs : List Rec) :
    failuresOf (rs.map (Item.record : Rec → Item Rec E)) = [] := by
  induction rs with
  | nil => rfl
  | cons r rest ih => simp [failuresOf, ih]

theorem recordsOf_gather {Rec E : Type} (extractor : String → Except E (List Rec))
    (p : String) :
    recordsOf (fault_tolerant_gather extractor p) = okRecords extractor p := by
  unfold fault_tolerant_gather okRecords
  cases extractor p with
  | error e => rfl
  | ok rs => exact recordsOf_map_record rs

/-- The failures of a single gather: nothing on success, the one tagged pair
on failure. -/
theorem failuresOf_gather {Rec E : Type} (extractor : String → Except E (List Rec))
    (p : String) :
    failuresOf (fault_tolerant_gather extractor p) = runFailures extractor [p] := by
  unfold fault_tolerant_gather runFailures
  cases hp : extractor p with
  | error e => simp [failuresOf, List.filterMap, hp]
  | ok rs => simp [List.filterMap, hp, failuresOf_map_record]

theorem recordsOf_flatten_gather {Rec E : Type}
    (extractor : String → Except E (List Rec)) (paths : List String) :
    recordsOf ((paths.map (fault_tolerant_gather extractor)).flatten) =
      (paths.map (okRecords extractor)).flatten := by
  induction paths with
  | nil => rfl
  | cons p rest ih =>
    simp only [List.map_cons, List.flatten_cons, recordsOf_append, ih,
      recordsOf_gather]

theorem failuresOf_flatten_gather {Rec E : Type}
    (extractor : String → Except E (List Rec)) (paths : List String) :
    failuresOf ((paths.map (fault_tolerant_gather extractor)).flatten) =
      runFailures extractor paths := by
  induction paths with
  | nil => rfl
  | cons p rest ih =>
    have hsingle : runFailures extractor (p :: rest) =
        runFailures extractor [p] ++ runFailures extractor rest := by
      show runFailures extractor ([p] ++ rest) = _
      unfold runFailures
      exact List.filterMap_append _ _ _
    simp only [List.map_cons, List.flatten_cons, failuresOf_append, ih,
      failuresOf_gather, hsingle]

/-- Each item is either a record or a failure, so the item count splits. -/
theorem length_eq_records_add_failures {Rec E : Type} (items : List (Item Rec E)) :
    items.length = (recordsOf items).length + (failuresOf items).length := by
  induction items with
  | nil => rfl
  | cons it rest ih => cases it <;> simp [recordsOf, failuresOf, ih] <;> omega

/-- Closed form for the per-item loop over a list of outcome items. -/
theorem foldl_process_loop {Rec E : Type} (errStr : E → String) (verbose : Bool)
    (items : List (Item Rec E)) : ∀ st : RunState Rec,
    items.foldl (process_loop errStr verbose) st =
      ⟨⟨st.stats.total_pdbs,
        st.stats.succeeded + (recordsOf items).length,
        st.stats.failed + (failuresOf items).length,
        st.stats.total_loops + items.length⟩,
       st.messages ++ (failuresOf items).map (fun f => failMessage verbose f.1 (errStr f.2)),
       st.pending ++ recordsOf items,
       st.committed⟩ := by
  induction items with
  | nil => intro st; simp [recordsOf, failuresOf]
  | cons it rest ih =>
    intro st
    cases it with
    | record r =>
      rw [List.foldl_cons, ih]
      simp [process_loop, recordsOf, failuresOf, RunState.mk.injEq,
        DbStats.mk.injEq]
      omega
    | failure p e =>
      rw [List.foldl_cons, ih]
      simp [process_loop, recordsOf, failuresOf, RunState.mk.injEq,
        DbStats.mk.injEq]
      omega

theorem runFailures_append {Rec E : Type} (extractor : String → Except E (List Rec))
    (xs ys : List String) :
    runFailures extractor (xs ++ ys) =
      runFailures extractor xs ++ runFailures extractor ys := by
  unfold runFailures
  exact List.filterMap_append _ _ _

/-- totalRecords is the length of the flattened per-path record lists. -/
theorem totalRecords_eq_length {Rec E : Type}
    (extractor : String → Except E (List Rec)) (l : List String) :
    ((l.map (okRecords extractor)).flatten).length = totalRecords extractor l := by
  unfold totalRecords
  exact List.length_flatten _

/-- Both dispatch branches of the chunk loop produce the per-path outcome
lists in input order. -/
theorem gather_outcomes_eq {Rec E : Type} (processes : Nat)
    (extractor : String → Except E (List Rec)) (paths : List String) :
    gather_outcomes processes extractor paths =
      paths.map (fault_tolerant_gather extractor) := by
  unfold gather_outcomes
  split <;> rfl

/-- Closed form for one chunk iteration. -/
theorem process_chunk_eq {Rec E : Type} (extractor : String → Except E (List Rec))
    (errStr : E → String) (processes : Nat) (verbose : Bool)
    (st : RunState Rec) (paths : List String) :
    process_chunk extractor errStr processes verbose st paths =
      ⟨⟨st.stats.total_pdbs + paths.length,
        st.stats.succeeded + totalRecords extractor paths,
        st.stats.failed + (runFailures extractor paths).length,
        st.stats.total_loops + totalRecords extractor paths
          + (runFailures extractor paths).length⟩,
       st.messages ++ (runFailures extractor paths).map
         (fun f => failMessage verbose f.1 (errStr f.2)),
       [],
       st.committed ++ [st.pending ++ (paths.map (okRecords extractor)).flatten]⟩ := by
  have hlen := length_eq_records_add_failures
    ((paths.map (fault_tolerant_gather extractor)).flatten)
  rw [recordsOf_flatten_gather, failuresOf_flatten_gather,
    totalRecords_eq_length] at hlen
  simp only [process_chunk, gather_outcomes_eq, foldl_process_loop,
    recordsOf_flatten_gather, failuresOf_flatten_gather, totalRecords_eq_length,
    RunState.mk.injEq, DbStats.mk.injEq, true_and, and_true]
  omega

/-- Closed form for the fold over any chunk list, starting from a state with
an empty staging area. -/
theorem foldl_process_chunk {Rec E : Type} (extractor : String → Except E (List Rec))
    (errStr : E → String) (processes : Nat) (verbose : Bool)
    (L : List (List String)) : ∀ st : RunState Rec, st.pending = [] →
    L.foldl (process_chunk extractor errStr processes verbose) st =
      ⟨⟨st.stats.total_pdbs + L.flatten.length,
        st.stats.succeeded + totalRecords extractor L.flatten,
        st.stats.failed + (runFailures extractor L.flatten).length,
        st.stats.total_loops + totalRecords extractor L.flatten
          + (runFailures extractor L.flatten).length⟩,
       st.messages ++ (runFailures extractor L.flatten).map
         (fun f => failMessage verbose f.1 (errStr f.2)),
       st.pending,
       st.committed ++ L.map (fun c => (c.map (okRecords extractor)).flatten)⟩ := by
  induction L with
  | nil =>
    intro st _
    simp [totalRecords, runFailures]
  | cons c L ih =>
    intro st h
    rw [List.foldl_cons, process_chunk_eq, ih _ rfl]
    have hsplit : totalRecords extractor (c ++ L.flatten) =
        totalRecords extractor c + totalRecords extractor L.flatten := by
      unfold totalRecords
      simp [List.map_append]
    simp only [List.flatten_cons, List.map_cons, List.length_append,
      runFailures_append, List.map_append, List.append_assoc, hsplit,
      List.singleton_append, h, List.nil_append, RunState.mk.injEq,
      DbStats.mk.injEq, true_and, and_true]
    omega

/-- Closed form for the whole run: the final counters, console output,
staging area and committed batches as functions of the input list and the
extractor. -/
theorem process_pdb_files_eq {Rec E : Type} (extractor : String → Except E (List Rec))
    (errStr : E → String) (l : List String) (processes : Nat) (verbose : Bool) :
    process_pdb_files extractor errStr l processes verbose =
      ⟨⟨l.length,
        totalRecords extractor l,
        (runFailures extractor l).length,
        totalRecords extractor l + (runFailures extractor l).length⟩,
       (runFailures extractor l).map (fun f => failMessage verbose f.1 (errStr f.2)),
       [],
       (data_chunks l).map (fun c => (c.map (okRecords extractor)).flatten)⟩ := by
  unfold process_pdb_files
  rw [foldl_process_chunk extractor errStr processes verbose (data_chunks l)
    (initState Rec) rfl, data_chunks_flatten]
  simp [initState]

/-! ### Concrete extractor behaviors for exhibits and witnesses -/

/-- idStr: renders an exception already modelled as its message string. -/
def idStr : String → String := fun s => s

/-- extTwoRecords: extraction succeeds on every file with two loop records. -/
def extTwoRecords : String → Except String (List Nat) :=
  fun _ => Except.ok [7, 8]

/-- extRaise: extraction raises on every file. -/
def extRaise : String → Except String (List Nat) :=
  fun _ => Except.error "boom"

/-- extOneRecord: extraction succeeds on every file with one loop record. -/
def extOneRecord : String → Except String (List Nat) :=
  fun _ => Except.ok [0]

/-- extEmptyOk: extraction succeeds on every file with no records. -/
def extEmptyOk : String → Except String (List Nat) :=
  fun _ => Except.ok []

/-- extMixed: extraction raises on "bad" and succeeds with one record
elsewhere. -/
def extMixed : String → Except String (List Nat) :=
  fun p => if p = "bad" then Except.error "oops" else Except.ok [5]

/-! ### Claim theorems -/

/-- Claim C1 (code-bug exhibit): on the single input file "a.pdb" whose
extraction succeeds with two records, the run ends with total_pdbs = 1,
succeeded = 2, failed = 0, so `succeeded + failed` differs from the number
of files submitted: the loop body increments `succeeded` once per extracted
record, not once per file, contradicting the claimed invariant and the
code's own summary message, which reports `succeeded`/`failed` as counts of
PDB files. -/
theorem C1_succeeded_counts_records :
    (process_pdb_files extTwoRecords idStr ["a.pdb"] 1 true).stats.total_pdbs = 1 ∧
    (process_pdb_files extTwoRecords idStr ["a.pdb"] 1 true).stats.succeeded = 2 ∧
    (process_pdb_files extTwoRecords idStr ["a.pdb"] 1 true).stats.failed = 0 ∧
    (process_pdb_files extTwoRecords idStr ["a.pdb"] 1 true).stats.succeeded +
        (process_pdb_files extTwoRecords idStr ["a.pdb"] 1 true).stats.failed ≠
      (process_pdb_files extTwoRecords idStr ["a.pdb"] 1 true).stats.total_pdbs := by
  decide

/-- Claim C2 (code-bug exhibit): on the single input file "a.pdb" whose
extraction raises, the run ends with total_loops = 1 although the sum of
per-file record counts over the succeeded files is 0 and nothing was
committed to the database: `total_loops` is incremented before the
`isinstance` test, so the failure tuple is counted although it is not a loop
and is not added to the database, contradicting the claim and the code's own
summary message ("added to database"). -/
theorem C2_total_loops_counts_failures :
    (process_pdb_files extRaise idStr ["a.pdb"] 1 true).stats.total_loops = 1 ∧
    totalRecords extRaise ["a.pdb"] = 0 ∧
    (process_pdb_files extRaise idStr ["a.pdb"] 1 true).committed.flatten =
      ([] : List Nat) ∧
    (process_pdb_files extRaise idStr ["a.pdb"] 1 true).stats.total_loops ≠
      totalRecords extRaise ["a.pdb"] := by
  decide

/-- Claim C3: fault_tolerant_gather invokes the extractor on the path; a
normal return yields the extractor's record sequence unchanged, possibly
empty, as success items; a raised failure yields the single tagged failure
carrying the same path and the raised error value.  The function is total,
so the failure never propagates to the caller. -/
theorem C3_fault_tolerant_gather_isolates {Rec E : Type}
    (extractor : String → Except E (List Rec)) (path : String) :
    (∀ rs : List Rec, extractor path = Except.ok rs →
      fault_tolerant_gather extractor path = rs.map Item.record) ∧
    (∀ e : E, extractor path = Except.error e →
      fault_tolerant_gather extractor path = [Item.failure path e]) := by
  constructor
  · intro rs h
    unfold fault_tolerant_gather
    rw [h]
  · intro e h
    unfold fault_tolerant_gather
    rw [h]

/-- Claim C3 witness: the success and failure branches at concrete inputs. -/
theorem C3_witness :
    fault_tolerant_gather extMixed "good.pdb" = [Item.record 5] ∧
    fault_tolerant_gather extMixed "bad" = [Item.failure "bad" "oops"] :=
  ⟨(C3_fault_tolerant_gather_isolates extMixed "good.pdb").1 [5]
     (by simp [extMixed]),
   (C3_fault_tolerant_gather_isolates extMixed "bad").2 "oops"
     (by simp [extMixed])⟩

/-- Claim C5: the chunking step partitions the input: concatenating the
chunks in order reproduces the input exactly (so they are pairwise
non-overlapping and jointly exhaustive), every chunk except the final one
holds exactly 100 paths, and every chunk is nonempty with at most 100
paths. -/
theorem C5_chunk_partition {α : Type} (l : List α) :
    (data_chunks l).flatten = l ∧
    (∀ c ∈ (data_chunks l).dropLast, c.length = 100) ∧
    (∀ c ∈ data_chunks l, c ≠ [] ∧ c.length ≤ 100) :=
  ⟨data_chunks_flatten l, data_chunks_dropLast_sizes l, data_chunks_mem_sizes l⟩

/-- Claim C5 witness: the partition on a concrete 150-element input, with a
concrete non-final chunk of length exactly 100. -/
theorem C5_witness :
    (data_chunks (List.range 150)).flatten = List.range 150 ∧
    ((List.range 150).take 100).length = 100 :=
  ⟨(C5_chunk_partition (List.range 150)).1,
   (C5_chunk_partition (List.range 150)).2.1 ((List.range 150).take 100)
     (by decide)⟩

/-- Claim C6: parallelism transparency: for a fixed input list and fixed
deterministic extractor, running with processes = 1 and processes = 4 gives
the same final state (statistics, console output, staged and committed
records), and in both dispatch modes the orchestrator consumes the per-file
outcome lists in the input order of the chunk's paths. -/
theorem C6_parallelism_transparent {Rec E : Type}
    (extractor : String → Except E (List Rec)) (errStr : E → String)
    (l : List String) (verbose : Bool) :
    process_pdb_files extractor errStr l 1 verbose =
      process_pdb_files extractor errStr l 4 verbose ∧
    (∀ (processes : Nat) (paths : List String),
      gather_outcomes processes extractor paths =
        paths.map (fault_tolerant_gather extractor)) := by
  constructor
  · rw [process_pdb_files_eq, process_pdb_files_eq]
  · intro processes paths
    exact gather_outcomes_eq processes extractor paths

/-- Claim C7: 250 input files, all succeeding with exactly one record: the
run processes three chunks of sizes 100, 100 and 50, commits three batches
(one per chunk, in chunk order, of sizes 100, 100 and 50), and ends with
total_pdbs = 250, succeeded = 250, failed = 0, total_loops = 250. -/
theorem C7_scenario_250 :
    (data_chunks (List.replicate 250 "f.pdb")).map List.length =
      [100, 100, 50] ∧
    (process_pdb_files extOneRecord idStr (List.replicate 250 "f.pdb") 1
        true).committed.map List.length = [100, 100, 50] ∧
    (process_pdb_files extOneRecord idStr (List.replicate 250 "f.pdb") 1
        true).stats = ⟨250, 250, 0, 250⟩ := by
  decide

/-- Claim C8: each failed file increments the failed counter exactly once
and produces exactly one console notice, in input order: the run's messages
are precisely one failMessage per failure, and the failed counter is the
number of failures; the verbose notice carries the path and the full error
detail, the non-verbose notice carries the path only. -/
theorem C8_failure_notices {Rec E : Type}
    (extractor : String → Except E (List Rec)) (errStr : E → String)
    (l : List String) (processes : Nat) (verbose : Bool) :
    (process_pdb_files extractor errStr l processes verbose).messages =
      (runFailures extractor l).map
        (fun f => failMessage verbose f.1 (errStr f.2)) ∧
    (process_pdb_files extractor errStr l processes verbose).stats.failed =
      (runFailures extractor l).length ∧
    (∀ p estr : String, failMessage true p estr =
      "Failed to process " ++ p ++ ":\n " ++ estr ++ "\n") ∧
    (∀ p estr : String, failMessage false p estr =
      "Failed to process " ++ p) := by
  refine ⟨?_, ?_, fun p estr => rfl, fun p estr => rfl⟩
  · rw [process_pdb_files_eq]
  · rw [process_pdb_files_eq]

/-- Claim C9: a file whose extraction succeeds with an empty record list
contributes no outcome items: folding the per-item loop over its gather
result leaves the state unchanged (succeeded, failed, total_loops, staged
records all untouched); total_pdbs reflects the file only through the
per-chunk increment by the chunk's length. -/
theorem C9_empty_success_invisible {Rec E : Type}
    (extractor : String → Except E (List Rec)) (errStr : E → String)
    (p : String) (h : extractor p = Except.ok ([] : List Rec)) :
    fault_tolerant_gather extractor p = ([] : List (Item Rec E)) ∧
    (∀ (verbose : Bool) (st : RunState Rec),
      (fault_tolerant_gather extractor p).foldl
        (process_loop errStr verbose) st = st) ∧
    (∀ (processes : Nat) (verbose : Bool) (st : RunState Rec)
        (paths : List String),
      (process_chunk extractor errStr processes verbose st paths).stats.total_pdbs =
        st.stats.total_pdbs + paths.length) := by
  have hg : fault_tolerant_gather extractor p = ([] : List (Item Rec E)) := by
    unfold fault_tolerant_gather
    rw [h]
    rfl
  refine ⟨hg, ?_, ?_⟩
  · intro verbose st
    rw [hg]
    rfl
  · intro processes verbose st paths
    rw [process_chunk_eq]

/-- Claim C9 witness: the empty-success case at a concrete extractor, path
and state. -/
theorem C9_witness :
    fault_tolerant_gather extEmptyOk "x.pdb" = ([] : List (Item Nat String)) ∧
    (fault_tolerant_gather extEmptyOk "x.pdb").foldl (process_loop idStr true)
      (initState Nat) = initState Nat :=
  ⟨(C9_empty_success_invisible extEmptyOk idStr "x.pdb" rfl).1,
   (C9_empty_success_invisible extEmptyOk idStr "x.pdb" rfl).2.1 true
     (initState Nat)⟩

/-- Claim C10: the chunk size is the fixed constant 100: every chunk except
possibly the last holds exactly 100 paths, and for every value of the
processes and verbose parameters the run commits exactly one batch per chunk
of data_chunks (the output_path parameter only names the SQLite file and
takes no part in the control flow, so it does not occur in the model). -/
theorem C10_chunk_size_constant {Rec E : Type}
    (extractor : String → Except E (List Rec)) (errStr : E → String)
    (l : List String) :
    (∀ c ∈ (data_chunks l).dropLast, c.length = 100) ∧
    (∀ (processes : Nat) (verbose : Bool),
      (process_pdb_files extractor errStr l processes verbose).committed =
        (data_chunks l).map (fun c => (c.map (okRecords extractor)).flatten)) := by
  refine ⟨data_chunks_dropLast_sizes l, ?_⟩
  intro processes verbose
  rw [process_pdb_files_eq]

/-- Claim C10 witness: a concrete non-final chunk of length exactly 100, and
the committed-batch shape at concrete parameter values. -/
theorem C10_witness :
    ((List.replicate 150 "p.pdb").take 100).length = 100 ∧
    (process_pdb_files extOneRecord idStr (List.replicate 150 "p.pdb") 4
        false).committed =
      (data_chunks (List.replicate 150 "p.pdb")).map
        (fun c => (c.map (okRecords extOneRecord)).flatten) :=
  ⟨(C10_chunk_size_constant extOneRecord idStr (List.replicate 150 "p.pdb")).1
      ((List.replicate 150 "p.pdb").take 100) (by decide),
   (C10_chunk_size_constant extOneRecord idStr (List.replicate 150 "p.pdb")).2
     4 false⟩

/-- Claim C4 (code-bug exhibit): with N = 1 input file and K = 0 raising
files, the run completes and reports failed = 0 = K, but succeeded = 2
rather than N - K = 1, because the file produced two records and `succeeded`
counts records, not files. -/
theorem C4_stats_not_per_file :
    (process_pdb_files extTwoRecords idStr ["a.pdb"] 1 true).stats.failed = 0 ∧
    (process_pdb_files extTwoRecords idStr ["a.pdb"] 1 true).stats.succeeded ≠ 1 := by
  decide
